import Mathlib

/-!
Shallow embedding of the CRUD demo backend (users, products, event publisher,
notification dispatcher) for verifying the specification claims.

JavaScript strings are modelled as `List Char`.  `String.prototype.toLowerCase`
is modelled for the basic-latin range (the only range the code relies on),
`String.prototype.trim` strips the whitespace characters recognised by the
model, and JavaScript truthiness of an optional string field is captured by
`strTruthy` (absent or empty means falsy).  Timestamps (`new Date()`) are
modelled by a natural-number clock carried in the repository state; the
one-millisecond `setTimeout` delay inside `InMemoryUserRepository.update`
advances the clock by one.  Prices (JavaScript numbers) are modelled as exact
rationals, with `Math.round(x * 100) / 100` modelled by `jsRound2`.
-/

abbrev Str := List Char

/-- Lower-casing of one character, as in `String.prototype.toLowerCase`
restricted to basic latin: code points 65..90 are shifted by 32. -/
def jsCharToLower (c : Char) : Char :=
  if 65 ≤ c.toNat ∧ c.toNat ≤ 90 then Char.ofNat (c.toNat + 32) else c

/-- Model of `s.toLowerCase()`. -/
def jsToLower (s : Str) : Str := s.map jsCharToLower

/-- Whitespace classification used by the model of `String.prototype.trim`
(space, tab, carriage return, line feed). -/
def jsIsWs (c : Char) : Bool :=
  c.toNat == 32 || c.toNat == 9 || c.toNat == 13 || c.toNat == 10

/-- Model of `s.trim()`: drop whitespace from the front, then from the back. -/
def jsTrim (s : Str) : Str :=
  ((s.dropWhile jsIsWs).reverse.dropWhile jsIsWs).reverse

/-- The normalisation `email.toLowerCase().trim()` used by `UserService` and
`UserFactory`. -/
def normEmail (s : Str) : Str := jsTrim (jsToLower s)

/-- Truthiness of an optional string field: `undefined` and the empty string
are falsy. -/
def strTruthy (o : Option Str) : Bool :=
  match o with
  | none => false
  | some s => !s.isEmpty

/-- A character allowed by the `[^\s@]` classes of the email regular
expression `^[^\s@]+@[^\s@]+\.[^\s@]+$`. -/
def emailPlainChar (c : Char) : Bool := !jsIsWs c && !(c == '@')

/-- Executable model of `/^[^\s@]+@[^\s@]+\.[^\s@]+$/.test s`: a nonempty
run of plain characters, one `@`, then a tail of plain characters containing
a dot that is neither its first nor its last character. -/
def emailRegexTest (s : Str) : Bool :=
  let pre := s.takeWhile (fun c => !(c == '@'))
  match s.dropWhile (fun c => !(c == '@')) with
  | [] => false
  | _ :: t =>
    !pre.isEmpty && pre.all emailPlainChar && t.all emailPlainChar &&
      (t.tail.dropLast.contains '.')

/-- Association-list model of `Map.prototype.set`: replace in place if the key
is present (JavaScript maps keep insertion order), append otherwise. -/
def setAssoc {α : Type} : List (Nat × α) → Nat → α → List (Nat × α)
  | [], k, v => [(k, v)]
  | (k', v') :: rest, k, v =>
    if k' = k then (k, v) :: rest else (k', v') :: setAssoc rest k v

/-- Association-list model of `Map.prototype.get`. -/
def lookupAssoc {α : Type} : List (Nat × α) → Nat → Option α
  | [], _ => none
  | (k', v') :: rest, k => if k' = k then some v' else lookupAssoc rest k

/-- Association-list model of `Map.prototype.delete` (the removal part). -/
def eraseAssoc {α : Type} : List (Nat × α) → Nat → List (Nat × α)
  | [], _ => []
  | (k', v') :: rest, k =>
    if k' = k then rest else (k', v') :: eraseAssoc rest k

/-- Model of `Math.round` on exact rationals: round half toward positive
infinity, computed as the floor of `q + 1/2` (`Int.fdiv` is floor
division and rationals are kept normalised with positive denominators). -/
def jsRound (q : ℚ) : ℤ := (q + 1/2).num.fdiv ((q + 1/2).den : ℤ)

/-- Model of `Math.round(x * 100) / 100` (rounding to 2 decimal places). -/
def jsRound2 (q : ℚ) : ℚ := (jsRound (q * 100) : ℚ) / 100

/-! ## User domain (src/backend/src/models/User.ts, repositories, UserService) -/

/-- The `User` entity (`models/User.ts`): identifiers are modelled as naturals
(the repository generates them freshly, as `uuidv4` does), timestamps as
naturals. -/
structure JsUser where
  id : Nat
  email : Str
  name : Str
  createdAt : Nat
  updatedAt : Nat
deriving DecidableEq

/-- `CreateUserRequest`. -/
structure CreateUserRequest where
  email : Str
  name : Str

/-- `UpdateUserRequest`: both fields optional. -/
structure UpdateUserRequest where
  email : Option Str := none
  name : Option Str := none

/-- A `Partial<User>` as accepted by `InMemoryUserRepository.update`. -/
structure JsUserPartial where
  id : Option Nat := none
  email : Option Str := none
  name : Option Str := none
  createdAt : Option Nat := none
  updatedAt : Option Nat := none

/-- The spread `{...updatedUser}` of a full `User` used by `UserService`
when calling `repository.update`. -/
def JsUser.toPartial (u : JsUser) : JsUserPartial :=
  { id := some u.id, email := some u.email, name := some u.name,
    createdAt := some u.createdAt, updatedAt := some u.updatedAt }

/-- State owned by one `InMemoryUserRepository` instance: the backing map in
insertion order, the generator of fresh identifiers, and the wall clock. -/
structure UserRepoState where
  users : List (Nat × JsUser)
  nextId : Nat
  clock : Nat
deriving DecidableEq

/-- The empty store. -/
def emptyUserRepo : UserRepoState := { users := [], nextId := 0, clock := 0 }

/-- `InMemoryUserRepository.findById`. -/
def repoFindById (s : UserRepoState) (id : Nat) : Option JsUser :=
  lookupAssoc s.users id

/-- `InMemoryUserRepository.findAll` (`Array.from(this.users.values())`). -/
def repoFindAll (s : UserRepoState) : List JsUser := s.users.map Prod.snd

/-- `InMemoryUserRepository.create`: fresh id, `createdAt` and `updatedAt`
both stamped with the current time, fields stored exactly as given. -/
def repoCreate (s : UserRepoState) (email name : Str) : JsUser × UserRepoState :=
  let u : JsUser := { id := s.nextId, email := email, name := name,
                      createdAt := s.clock, updatedAt := s.clock }
  (u, { s with users := s.users ++ [(s.nextId, u)], nextId := s.nextId + 1 })

/-- `InMemoryUserRepository.update`: absent id gives `null`; otherwise a
one-millisecond delay (clock advances), spread of the partial over the
existing snapshot, and `updatedAt` stamped with the post-delay time. -/
def repoUpdate (s : UserRepoState) (id : Nat) (upd : JsUserPartial) :
    Option JsUser × UserRepoState :=
  match lookupAssoc s.users id with
  | none => (none, s)
  | some ex =>
    let c := s.clock + 1
    let u : JsUser := { id := upd.id.getD ex.id, email := upd.email.getD ex.email,
                        name := upd.name.getD ex.name,
                        createdAt := upd.createdAt.getD ex.createdAt,
                        updatedAt := c }
    (some u, { users := setAssoc s.users id u, nextId := s.nextId, clock := c })

/-- `InMemoryUserRepository.delete`. -/
def repoDelete (s : UserRepoState) (id : Nat) : Bool × UserRepoState :=
  match lookupAssoc s.users id with
  | none => (false, s)
  | some _ => (true, { s with users := eraseAssoc s.users id })

/-- `InMemoryUserRepository.findByEmail`: linear scan comparing each stored
email against the lower-cased query (only the query is lower-cased). -/
def repoFindByEmail (s : UserRepoState) (email : Str) : Option JsUser :=
  (repoFindAll s).find? (fun u => u.email == jsToLower email)

/-- Error taxonomy of the user side, following the thrown messages. -/
inductive UserErr
  /-- `User with this email already exists` (ConflictError). -/
  | conflict
  /-- `User not found` (NotFoundError). -/
  | notFound
  /-- `Invalid email format` (ValidationError). -/
  | invalidEmail
  /-- `Name must be at least 2 characters long` (ValidationError). -/
  | invalidName
  /-- `Failed to update user`. -/
  | updateFailed
  /-- `Failed to delete user`. -/
  | deleteFailed
deriving DecidableEq

/-- `UserFactory.updateUser`: normalise the truthy fields, keep falsy ones
from the existing snapshot, validate only the truthy fields, always refresh
`updatedAt` with the current time. -/
def UserFactory.updateUser (ex : JsUser) (updates : UpdateUserRequest) (now : Nat) :
    Except UserErr JsUser :=
  if strTruthy updates.email && !emailRegexTest (normEmail (updates.email.getD [])) then
    .error .invalidEmail
  else if strTruthy updates.name &&
      decide ((jsTrim (jsTrim (updates.name.getD []))).length < 2) then
    .error .invalidName
  else
    .ok { ex with
      email := if strTruthy updates.email then normEmail (updates.email.getD []) else ex.email,
      name := if strTruthy updates.name then jsTrim (updates.name.getD []) else ex.name,
      updatedAt := now }

/-- Side effects recorded by a service call: a repository mutation, or a
domain-event publication of the given constructor name. -/
inductive SvcAction
  | mutate
  | publish (kind : String)
deriving DecidableEq

/-- `UserService.createUser`: normalise the email, fail with the conflict
error if `findByEmail` locates it, otherwise store `{email: normalizedEmail,
name: request.name.trim()}` and publish `UserCreatedEvent` after the write. -/
def UserService.createUser (s : UserRepoState) (req : CreateUserRequest) :
    Except UserErr JsUser × UserRepoState × List SvcAction :=
  match repoFindByEmail s (normEmail req.email) with
  | some _ => (.error .conflict, s, [])
  | none =>
    match repoCreate s (normEmail req.email) (jsTrim req.name) with
    | (u, s1) => (.ok u, s1, [.mutate, .publish "UserCreatedEvent"])

/-- `UserService.updateUser`: not-found check, then the uniqueness check
guarded by `updates.email && updates.email !== existingUser.email` (a literal
string comparison against the raw update value), then the factory merge and
the repository write, then `UserUpdatedEvent`. -/
def UserService.updateUser (s : UserRepoState) (id : Nat) (updates : UpdateUserRequest) :
    Except UserErr JsUser × UserRepoState × List SvcAction :=
  match repoFindById s id with
  | none => (.error .notFound, s, [])
  | some ex =>
    if strTruthy updates.email && !(updates.email.getD [] == ex.email) then
      match repoFindByEmail s (updates.email.getD []) with
      | some _ => (.error .conflict, s, [])
      | none =>
        match UserFactory.updateUser ex updates s.clock with
        | .error e => (.error e, s, [])
        | .ok newU =>
          match repoUpdate s id newU.toPartial with
          | (none, s1) => (.error .updateFailed, s1, [])
          | (some saved, s1) => (.ok saved, s1, [.mutate, .publish "UserUpdatedEvent"])
    else
      match UserFactory.updateUser ex updates s.clock with
      | .error e => (.error e, s, [])
      | .ok newU =>
        match repoUpdate s id newU.toPartial with
        | (none, s1) => (.error .updateFailed, s1, [])
        | (some saved, s1) => (.ok saved, s1, [.mutate, .publish "UserUpdatedEvent"])

/-- `UserService.deleteUser`: not-found check, delete, then
`UserDeletedEvent` carrying the pre-delete snapshot. -/
def UserService.deleteUser (s : UserRepoState) (id : Nat) :
    Except UserErr Unit × UserRepoState × List SvcAction :=
  match repoFindById s id with
  | none => (.error .notFound, s, [])
  | some _ =>
    match repoDelete s id with
    | (deleted, s1) =>
      if deleted then (.ok (), s1, [.mutate, .publish "UserDeletedEvent"])
      else (.error .deleteFailed, s1, [])

/-! ## Product domain (models/Product.ts, InMemoryProductRepository, ProductService) -/

/-- The closed category enumeration. -/
inductive JsProductCategory
  | electronics | clothing | books | home | sports
deriving DecidableEq

/-- The `Product` entity: price as an exact rational. -/
structure JsProduct where
  id : Nat
  name : Str
  price : ℚ
  category : JsProductCategory
  description : Str
  inStock : Bool
  createdAt : Nat
  updatedAt : Nat
deriving DecidableEq

/-- `CreateProductRequest`. -/
structure CreateProductRequest where
  name : Str
  price : ℚ
  category : JsProductCategory
  description : Str
  inStock : Option Bool := none

/-- `UpdateProductRequest`: every field optional. -/
structure UpdateProductRequest where
  name : Option Str := none
  price : Option ℚ := none
  category : Option JsProductCategory := none
  description : Option Str := none
  inStock : Option Bool := none

/-- A `Partial<Product>` as accepted by `InMemoryProductRepository.update`. -/
structure JsProductPartial where
  id : Option Nat := none
  name : Option Str := none
  price : Option ℚ := none
  category : Option JsProductCategory := none
  description : Option Str := none
  inStock : Option Bool := none
  createdAt : Option Nat := none
  updatedAt : Option Nat := none

/-- The spread of a full `Product` used by `ProductService.updateProduct`. -/
def JsProduct.toPartial (p : JsProduct) : JsProductPartial :=
  { id := some p.id, name := some p.name, price := some p.price,
    category := some p.category, description := some p.description,
    inStock := some p.inStock, createdAt := some p.createdAt,
    updatedAt := some p.updatedAt }

/-- Error taxonomy of the product side, following the thrown messages. -/
inductive ProductErr
  /-- `Product name must be at least 2 characters long` (ValidationError). -/
  | invalidName
  /-- `Product price must be positive` (ValidationError). -/
  | invalidPrice
  /-- `Product description must be at least 10 characters long` (ValidationError). -/
  | invalidDescription
  /-- `Product not found` (NotFoundError). -/
  | notFound
  /-- `Failed to update product`. -/
  | updateFailed
  /-- `Failed to delete product`. -/
  | deleteFailed
deriving DecidableEq

/-- `ProductFactory.validateProduct`: name at least 2 characters after
trimming, price strictly positive, description at least 10 characters after
trimming.  There is no upper bound on the price. -/
def validateProduct (name : Str) (price : ℚ) (description : Str) : Option ProductErr :=
  if (jsTrim name).length < 2 then some .invalidName
  else if price ≤ 0 then some .invalidPrice
  else if (jsTrim description).length < 10 then some .invalidDescription
  else none

/-- `ProductFactory.createProduct`: validate the raw fields, then store the
trimmed strings and the price rounded to 2 decimal places, with equal
creation and modification timestamps. -/
def ProductFactory.createProduct (id : Nat) (name : Str) (price : ℚ)
    (category : JsProductCategory) (description : Str) (inStock : Bool) (now : Nat) :
    Except ProductErr JsProduct :=
  match validateProduct name price description with
  | some e => .error e
  | none => .ok { id := id, name := jsTrim name, price := jsRound2 price,
                  category := category, description := jsTrim description,
                  inStock := inStock, createdAt := now, updatedAt := now }

/-- `ProductFactory.updateProduct`: spread the updates over the existing
snapshot, refresh `updatedAt`, then validate the merged name, price and
description (whether or not they were part of the update).  No trimming and
no rounding happen on this path. -/
def ProductFactory.updateProduct (ex : JsProduct) (updates : UpdateProductRequest)
    (now : Nat) : Except ProductErr JsProduct :=
  match validateProduct (updates.name.getD ex.name) (updates.price.getD ex.price)
      (updates.description.getD ex.description) with
  | some e => .error e
  | none => .ok { id := ex.id, name := updates.name.getD ex.name,
                  price := updates.price.getD ex.price,
                  category := updates.category.getD ex.category,
                  description := updates.description.getD ex.description,
                  inStock := updates.inStock.getD ex.inStock,
                  createdAt := ex.createdAt, updatedAt := now }

/-- State owned by one `InMemoryProductRepository` instance. -/
structure ProductRepoState where
  products : List (Nat × JsProduct)
  nextId : Nat
  clock : Nat
deriving DecidableEq

/-- The empty product store. -/
def emptyProductRepo : ProductRepoState := { products := [], nextId := 0, clock := 0 }

/-- `InMemoryProductRepository.findById`. -/
def productRepoFindById (s : ProductRepoState) (id : Nat) : Option JsProduct :=
  lookupAssoc s.products id

/-- `InMemoryProductRepository.create`: fields stored exactly as given, both
timestamps stamped with the current time. -/
def productRepoCreate (s : ProductRepoState) (name : Str) (price : ℚ)
    (category : JsProductCategory) (description : Str) (inStock : Bool) :
    JsProduct × ProductRepoState :=
  let p : JsProduct := { id := s.nextId, name := name, price := price,
                         category := category, description := description,
                         inStock := inStock, createdAt := s.clock, updatedAt := s.clock }
  (p, { s with products := s.products ++ [(s.nextId, p)], nextId := s.nextId + 1 })

/-- `InMemoryProductRepository.update`: spread over the existing snapshot and
stamp `updatedAt` (this repository has no delay). -/
def productRepoUpdate (s : ProductRepoState) (id : Nat) (upd : JsProductPartial) :
    Option JsProduct × ProductRepoState :=
  match lookupAssoc s.products id with
  | none => (none, s)
  | some ex =>
    let p : JsProduct := { id := upd.id.getD ex.id, name := upd.name.getD ex.name,
                           price := upd.price.getD ex.price,
                           category := upd.category.getD ex.category,
                           description := upd.description.getD ex.description,
                           inStock := upd.inStock.getD ex.inStock,
                           createdAt := upd.createdAt.getD ex.createdAt,
                           updatedAt := s.clock }
    (some p, { s with products := setAssoc s.products id p })

/-- `InMemoryProductRepository.delete`. -/
def productRepoDelete (s : ProductRepoState) (id : Nat) : Bool × ProductRepoState :=
  match lookupAssoc s.products id with
  | none => (false, s)
  | some _ => (true, { s with products := eraseAssoc s.products id })

/-- `ProductService.createProduct`: delegates straight to the repository with
the raw request fields (the factory is not involved on this path) and
publishes no event. -/
def ProductService.createProduct (s : ProductRepoState) (req : CreateProductRequest) :
    Except ProductErr JsProduct × ProductRepoState × List SvcAction :=
  match productRepoCreate s req.name req.price req.category req.description
    (req.inStock.getD true) with
  | (p, s1) => (.ok p, s1, [.mutate])

/-- `ProductService.updateProduct`: not-found check, factory merge, repository
write; publishes no event. -/
def ProductService.updateProduct (s : ProductRepoState) (id : Nat)
    (updates : UpdateProductRequest) :
    Except ProductErr JsProduct × ProductRepoState × List SvcAction :=
  match productRepoFindById s id with
  | none => (.error .notFound, s, [])
  | some ex =>
    match ProductFactory.updateProduct ex updates s.clock with
    | .error e => (.error e, s, [])
    | .ok newP =>
      match productRepoUpdate s id newP.toPartial with
      | (none, s1) => (.error .updateFailed, s1, [])
      | (some saved, s1) => (.ok saved, s1, [.mutate])

/-- `ProductService.deleteProduct`: not-found check, delete; publishes no
event. -/
def ProductService.deleteProduct (s : ProductRepoState) (id : Nat) :
    Except ProductErr Unit × ProductRepoState × List SvcAction :=
  match productRepoFindById s id with
  | none => (.error .notFound, s, [])
  | some _ =>
    match productRepoDelete s id with
    | (deleted, s1) =>
      if deleted then (.ok (), s1, [.mutate])
      else (.error .deleteFailed, s1, [])

/-! ## Event publisher (SimpleEventPublisher) -/

/-- A domain event as seen by the publisher: `event.constructor.name` is the
dispatch key. -/
structure DomainEventK where
  kind : String
  aggregateId : Nat

/-- An asynchronous subscriber callback, which either settles successfully or
fails with a message. -/
def EventHandlerF : Type := DomainEventK → Except String Unit

/-- `SimpleEventPublisher`: a map from event-kind to the array of handlers,
keyed by the constructor-name string.  Distinct kinds are kept as an
insertion-ordered association list like the backing `Map`. -/
structure SimpleEventPublisher where
  handlers : List (String × List EventHandlerF)

/-- `this.handlers.get(eventType) || []`. -/
def getHandlersFor (pub : SimpleEventPublisher) (kind : String) : List EventHandlerF :=
  match pub.handlers.find? (fun kv => kv.1 == kind) with
  | some kv => kv.2
  | none => []

/-- `SimpleEventPublisher.subscribe`: create the entry when absent, then push
the handler at the end of the array for that kind. -/
def subscribeEP (pub : SimpleEventPublisher) (kind : String) (h : EventHandlerF) :
    SimpleEventPublisher :=
  match pub.handlers.find? (fun kv => kv.1 == kind) with
  | none => { handlers := pub.handlers ++ [(kind, [h])] }
  | some _ =>
    { handlers := pub.handlers.map
        (fun kv => if kv.1 == kind then (kv.1, kv.2 ++ [h]) else kv) }

/-- `SimpleEventPublisher.getSubscribersCount`. -/
def getSubscribersCount (pub : SimpleEventPublisher) (kind : String) : Nat :=
  (getHandlersFor pub kind).length

/-- How one handler invocation settles: `handler(event).catch(log)` never
rejects, so a failure is caught (and logged) rather than propagated. -/
inductive HandlerOutcome
  | fulfilled
  | failedCaught (msg : String)
deriving DecidableEq

/-- Run one handler under the per-handler `.catch`. -/
def settleHandler (h : EventHandlerF) (e : DomainEventK) : HandlerOutcome :=
  match h e with
  | .ok _ => .fulfilled
  | .error m => .failedCaught m

/-- Run every handler in array order, each under its own `.catch`
(`Promise.allSettled` over the mapped promises). -/
def runHandlers : List EventHandlerF → DomainEventK → List HandlerOutcome
  | [], _ => []
  | h :: rest, e => settleHandler h e :: runHandlers rest e

/-- `SimpleEventPublisher.publish`: dispatch to all handlers registered for
`event.constructor.name`; the call itself always resolves. -/
def publishEP (pub : SimpleEventPublisher) (e : DomainEventK) :
    Except String (List HandlerOutcome) :=
  .ok (runHandlers (getHandlersFor pub e.kind) e)

/-! ## Notification dispatcher (strategies/NotificationStrategy.ts) -/

/-- One notification strategy: its class name, its address predicate, and the
delivered-flag its `send` resolves with. -/
structure NotificationStrategyS where
  tag : String
  canHandle : Str → Bool
  sendDelivers : Str → Str → Bool

/-- `NoSenderError` (`No notification strategy found for recipient`). -/
inductive NotifErr
  | noSender
deriving DecidableEq

/-- `NotificationService.sendNotification`: `strategies.find(s =>
s.canHandle(recipient))`, then invoke `send` on the one found; the result
records which strategy was invoked (its tag) and the delivered flag. -/
def sendNotification (strategies : List NotificationStrategyS)
    (message recipient : Str) : Except NotifErr (String × Bool) :=
  match strategies.find? (fun st => st.canHandle recipient) with
  | none => .error .noSender
  | some st => .ok (st.tag, st.sendDelivers message recipient)

/-- `EmailNotificationStrategy`: handles any address containing `@`; `send`
resolves `true`. -/
def emailStrategy : NotificationStrategyS :=
  { tag := "EmailNotificationStrategy",
    canHandle := fun r => r.contains '@',
    sendDelivers := fun _ _ => true }

/-- `SmsNotificationStrategy`: handles addresses matching the phone pattern
(a leading plus sign followed by 10 to 15 digits); `send` resolves `true`. -/
def smsStrategy : NotificationStrategyS :=
  { tag := "SmsNotificationStrategy",
    canHandle := fun r =>
      match r with
      | [] => false
      | c :: ds => c == '+' && ds.all Char.isDigit &&
          decide (10 ≤ ds.length) && decide (ds.length ≤ 15),
    sendDelivers := fun _ _ => true }

/-- `PushNotificationStrategy`: handles addresses starting with `device_`;
`send` resolves `true`. -/
def pushStrategy : NotificationStrategyS :=
  { tag := "PushNotificationStrategy",
    canHandle := fun r => r.take 7 == "device_".data,
    sendDelivers := fun _ _ => true }

/-- The default registration order set up by the `NotificationService`
constructor. -/
def defaultStrategies : List NotificationStrategyS :=
  [emailStrategy, smsStrategy, pushStrategy]

/-! ## Reachability of user-store states through the service layer -/

/-- States of the user repository reachable from the empty store using only
the three mutating `UserService` operations (each step keeps the state the
operation returns, whether it succeeded or failed). -/
inductive ReachableU : UserRepoState → Prop
  | init : ReachableU emptyUserRepo
  | create (s : UserRepoState) (req : CreateUserRequest) :
      ReachableU s → ReachableU (UserService.createUser s req).2.1
  | update (s : UserRepoState) (id : Nat) (upd : UpdateUserRequest) :
      ReachableU s → ReachableU (UserService.updateUser s id upd).2.1
  | del (s : UserRepoState) (id : Nat) :
      ReachableU s → ReachableU (UserService.deleteUser s id).2.1
deriving instance DecidableEq for Except

/-- Whether an `Except` computation succeeded (`true` exactly on `.ok`). -/
def exceptOk {e a : Type} : Except e a → Bool
  | .ok _ => true
  | .error _ => false

/-! ## Lemmas about the string model -/

theorem char_toNat_ofNat_of_lt {n : Nat} (h : n < 55296) : (Char.ofNat n).toNat = n := by
  have hv : n.isValidChar := Or.inl h
  rw [Char.ofNat, dif_pos hv]
  rfl

theorem jsCharToLower_idem (c : Char) : jsCharToLower (jsCharToLower c) = jsCharToLower c := by
  unfold jsCharToLower
  by_cases h : 65 ≤ c.toNat ∧ c.toNat ≤ 90
  · rw [if_pos h]
    have h2 : (Char.ofNat (c.toNat + 32)).toNat = c.toNat + 32 :=
      char_toNat_ofNat_of_lt (by omega)
    rw [if_neg (by rw [h2]; omega)]
  · rw [if_neg h, if_neg h]

theorem jsIsWs_jsCharToLower (c : Char) : jsIsWs (jsCharToLower c) = jsIsWs c := by
  unfold jsCharToLower
  by_cases h : 65 ≤ c.toNat ∧ c.toNat ≤ 90
  · rw [if_pos h]
    have h2 : (Char.ofNat (c.toNat + 32)).toNat = c.toNat + 32 :=
      char_toNat_ofNat_of_lt (by omega)
    unfold jsIsWs
    rw [h2]
    have e1 : (c.toNat + 32 == 32) = false := by simp only [beq_eq_false_iff_ne]; omega
    have e2 : (c.toNat + 32 == 9) = false := by simp only [beq_eq_false_iff_ne]; omega
    have e3 : (c.toNat + 32 == 13) = false := by simp only [beq_eq_false_iff_ne]; omega
    have e4 : (c.toNat + 32 == 10) = false := by simp only [beq_eq_false_iff_ne]; omega
    have f1 : (c.toNat == 32) = false := by simp only [beq_eq_false_iff_ne]; omega
    have f2 : (c.toNat == 9) = false := by simp only [beq_eq_false_iff_ne]; omega
    have f3 : (c.toNat == 13) = false := by simp only [beq_eq_false_iff_ne]; omega
    have f4 : (c.toNat == 10) = false := by simp only [beq_eq_false_iff_ne]; omega
    rw [e1, e2, e3, e4, f1, f2, f3, f4]
  · rw [if_neg h]

theorem jsToLower_idem (s : Str) : jsToLower (jsToLower s) = jsToLower s := by
  unfold jsToLower
  rw [List.map_map]
  exact List.map_congr_left fun c _ => jsCharToLower_idem c

theorem jsToLower_jsTrim (s : Str) : jsToLower (jsTrim s) = jsTrim (jsToLower s) := by
  unfold jsToLower jsTrim
  have hp : (jsIsWs ∘ jsCharToLower) = jsIsWs := funext fun c => jsIsWs_jsCharToLower c
  simp only [List.dropWhile_map, hp, ← List.map_reverse]

theorem dropWhile_back_dropWhile (p : Char → Bool) (m : Str) (h : m.dropWhile p = m) :
    ((m.reverse.dropWhile p).reverse).dropWhile p = (m.reverse.dropWhile p).reverse := by
  cases m with
  | nil => simp
  | cons a t =>
    have hpa : p a = false := by
      by_cases hp : p a = true
      · rw [List.dropWhile_cons, if_pos hp] at h
        have := (List.dropWhile_sublist (l := t) p).length_le
        have := congrArg List.length h
        simp at this
        omega
      · exact Bool.eq_false_iff.mpr (fun he => hp he)
    rw [List.reverse_cons, List.dropWhile_append]
    by_cases he : (t.reverse.dropWhile p).isEmpty = true
    · rw [if_pos he]
      simp [List.dropWhile_cons, hpa]
    · rw [if_neg he]
      rw [List.reverse_append]
      simp only [List.reverse_cons, List.reverse_nil, List.nil_append, List.singleton_append]
      rw [List.dropWhile_cons, hpa]
      simp

theorem jsTrim_idem (s : Str) : jsTrim (jsTrim s) = jsTrim s := by
  unfold jsTrim
  set m := s.dropWhile jsIsWs with hm
  have h1 : m.dropWhile jsIsWs = m := by
    rw [hm]; exact List.dropWhile_idempotent jsIsWs s
  set n := (m.reverse.dropWhile jsIsWs).reverse with hn
  have h2 : n.dropWhile jsIsWs = n := dropWhile_back_dropWhile jsIsWs m h1
  rw [h2, hn, List.reverse_reverse, List.dropWhile_idempotent]

theorem jsToLower_normEmail (s : Str) : jsToLower (normEmail s) = normEmail s := by
  unfold normEmail
  rw [jsToLower_jsTrim, jsToLower_idem]

theorem normEmail_idem (s : Str) : normEmail (normEmail s) = normEmail s := by
  show jsTrim (jsToLower (jsTrim (jsToLower s))) = jsTrim (jsToLower s)
  rw [jsToLower_jsTrim, jsToLower_idem, jsTrim_idem]

/-! ## Claim theorems -/

theorem createUser_ok_inv (s : UserRepoState) (r : CreateUserRequest)
    (u : JsUser) (s1 : UserRepoState) (tr : List SvcAction)
    (h : UserService.createUser s r = (.ok u, s1, tr)) :
    repoFindByEmail s (normEmail r.email) = none ∧
    u = { id := s.nextId, email := normEmail r.email, name := jsTrim r.name,
          createdAt := s.clock, updatedAt := s.clock } ∧
    s1 = { s with users := s.users ++ [(s.nextId, u)], nextId := s.nextId + 1 } ∧
    tr = [.mutate, .publish "UserCreatedEvent"] := by
  unfold UserService.createUser at h
  cases hfe : repoFindByEmail s (normEmail r.email) with
  | some w => rw [hfe] at h; simp at h
  | none =>
    rw [hfe] at h
    simp only [repoCreate, Prod.mk.injEq, Except.ok.injEq] at h
    obtain ⟨hu, hs1, htr⟩ := h
    exact ⟨rfl, hu.symm, by rw [← hs1, ← hu], htr.symm⟩

/-- Claim C1: if a `createUser` succeeds, a second `createUser` whose email
differs only in letter case (identical lower-cased trimmed form) fails with
the conflict error and leaves the store unchanged (no second user). -/
theorem createUser_case_variant_conflicts
    (s : UserRepoState) (r1 r2 : CreateUserRequest)
    (u : JsUser) (s1 : UserRepoState) (tr : List SvcAction)
    (hnorm : normEmail r1.email = normEmail r2.email)
    (h1 : UserService.createUser s r1 = (.ok u, s1, tr)) :
    UserService.createUser s1 r2 = (.error .conflict, s1, []) := by
  obtain ⟨hfe, hu, hs1, -⟩ := createUser_ok_inv s r1 u s1 tr h1
  have hfind : repoFindByEmail s1 (normEmail r2.email) = some u := by
    unfold repoFindByEmail repoFindAll at hfe ⊢
    rw [hs1, ← hnorm]
    simp only [List.map_append, List.find?_append]
    rw [hfe]
    have hbeq : (u.email == jsToLower (normEmail r1.email)) = true := by
      rw [jsToLower_normEmail, hu]
      simp
    simp [hbeq]
  unfold UserService.createUser
  rw [hfind]

theorem lookupAssoc_append_right {α : Type} (l1 l2 : List (Nat × α)) (k : Nat)
    (h : lookupAssoc l1 k = none) : lookupAssoc (l1 ++ l2) k = lookupAssoc l2 k := by
  induction l1 with
  | nil => simp
  | cons kv rest ih =>
    cases kv with
    | mk k' v' =>
      simp only [List.cons_append, lookupAssoc] at h ⊢
      by_cases hk : k' = k
      · rw [if_pos hk] at h; simp at h
      · rw [if_neg hk] at h ⊢; exact ih h

theorem lookupAssoc_none_of_lt (l : List (Nat × JsUser)) (n : Nat)
    (hbound : ∀ kv ∈ l, kv.1 < n) : lookupAssoc l n = none := by
  induction l with
  | nil => rfl
  | cons kv rest ih =>
    unfold lookupAssoc
    cases kv with
    | mk k v =>
      have hk : k < n := hbound (k, v) (by simp)
      rw [if_neg (by omega)]
      exact ih (fun kv hm => hbound kv (by simp [hm]))

/-- Claim C4: a successful `createUser` with a valid email and name returns
(and stores) an entity whose email is the lower-cased trimmed input email,
whose name is the trimmed input name, and whose creation and modification
timestamps coincide. -/
theorem createUser_normalizes_and_stamps
    (s : UserRepoState) (r : CreateUserRequest)
    (u : JsUser) (s1 : UserRepoState) (tr : List SvcAction)
    (hemail : emailRegexTest (jsTrim r.email) = true)
    (hname : 2 ≤ (jsTrim r.name).length ∧ (jsTrim r.name).length ≤ 100)
    (hfresh : ∀ kv ∈ s.users, kv.1 < s.nextId)
    (h : UserService.createUser s r = (.ok u, s1, tr)) :
    u.email = normEmail r.email ∧ u.name = jsTrim r.name ∧
    u.createdAt = u.updatedAt ∧ repoFindById s1 u.id = some u := by
  obtain ⟨hfe, hu, hs1, -⟩ := createUser_ok_inv s r u s1 tr h
  refine ⟨by rw [hu], by rw [hu], by rw [hu], ?_⟩
  rw [hs1]
  unfold repoFindById
  have hid : u.id = s.nextId := by rw [hu]
  rw [hid]
  rw [lookupAssoc_append_right _ _ _ (lookupAssoc_none_of_lt s.users s.nextId hfresh)]
  unfold lookupAssoc
  rw [if_pos rfl]

/-- Witness for claim C1 at a concrete store: creating `Test@Example.com`
then `test@example.com ` hits the conflict error. -/
theorem createUser_case_variant_conflicts_witness :
    normEmail "Test@Example.com".data = normEmail "test@example.com ".data ∧
    UserService.createUser emptyUserRepo
      { email := "Test@Example.com".data, name := " Ann ".data } =
      (.ok ⟨0, "test@example.com".data, "Ann".data, 0, 0⟩,
       ⟨[(0, ⟨0, "test@example.com".data, "Ann".data, 0, 0⟩)], 1, 0⟩,
       [.mutate, .publish "UserCreatedEvent"]) ∧
    UserService.createUser
      ⟨[(0, ⟨0, "test@example.com".data, "Ann".data, 0, 0⟩)], 1, 0⟩
      { email := "test@example.com ".data, name := "Other".data } =
      (.error .conflict,
       ⟨[(0, ⟨0, "test@example.com".data, "Ann".data, 0, 0⟩)], 1, 0⟩, []) :=
  ⟨by decide, by decide,
    createUser_case_variant_conflicts emptyUserRepo
      { email := "Test@Example.com".data, name := " Ann ".data }
      { email := "test@example.com ".data, name := "Other".data }
      ⟨0, "test@example.com".data, "Ann".data, 0, 0⟩
      ⟨[(0, ⟨0, "test@example.com".data, "Ann".data, 0, 0⟩)], 1, 0⟩
      [.mutate, .publish "UserCreatedEvent"] (by decide) (by decide)⟩

/-- Witness for claim C4 at the concrete scenario from the specification:
`createUser({email:"Test@Example.com", name:" Ann "})`. -/
theorem createUser_normalizes_and_stamps_witness :
    emailRegexTest (jsTrim "Test@Example.com".data) = true ∧
    (2 ≤ (jsTrim " Ann ".data).length ∧ (jsTrim " Ann ".data).length ≤ 100) ∧
    ((⟨0, "test@example.com".data, "Ann".data, 0, 0⟩ : JsUser).email =
        normEmail "Test@Example.com".data ∧
      (⟨0, "test@example.com".data, "Ann".data, 0, 0⟩ : JsUser).name =
        jsTrim " Ann ".data ∧
      (⟨0, "test@example.com".data, "Ann".data, 0, 0⟩ : JsUser).createdAt =
        (⟨0, "test@example.com".data, "Ann".data, 0, 0⟩ : JsUser).updatedAt ∧
      repoFindById ⟨[(0, ⟨0, "test@example.com".data, "Ann".data, 0, 0⟩)], 1, 0⟩
        (⟨0, "test@example.com".data, "Ann".data, 0, 0⟩ : JsUser).id =
        some ⟨0, "test@example.com".data, "Ann".data, 0, 0⟩) :=
  ⟨by decide, by decide,
    createUser_normalizes_and_stamps emptyUserRepo
      { email := "Test@Example.com".data, name := " Ann ".data }
      ⟨0, "test@example.com".data, "Ann".data, 0, 0⟩
      ⟨[(0, ⟨0, "test@example.com".data, "Ann".data, 0, 0⟩)], 1, 0⟩
      [.mutate, .publish "UserCreatedEvent"]
      (by decide) (by decide) (by decide) (by decide)⟩

theorem lookupAssoc_setAssoc {α : Type} (l : List (Nat × α)) (k : Nat) (v : α) :
    lookupAssoc (setAssoc l k v) k = some v := by
  induction l with
  | nil => simp [setAssoc, lookupAssoc]
  | cons kv rest ih =>
    cases kv with
    | mk k' v' =>
      by_cases hk : k' = k
      · simp [setAssoc, lookupAssoc, hk]
      · simp only [setAssoc, lookupAssoc, if_neg hk]
        exact ih

/-- Claim C2 counterexample: the store reached by creating
`test@example.com`, then an update of that same user whose `email` field is
the same address with a different letter casing; the literal comparison
`updates.email !== existingUser.email` does not skip the check, the
case-insensitive lookup finds the user itself, and the call fails with the
conflict error instead of succeeding. -/
theorem updateUser_self_case_variant_conflicts :
    UserService.createUser emptyUserRepo
      { email := "test@example.com".data, name := "Test User".data } =
      (.ok ⟨0, "test@example.com".data, "Test User".data, 0, 0⟩,
       ⟨[(0, ⟨0, "test@example.com".data, "Test User".data, 0, 0⟩)], 1, 0⟩,
       [.mutate, .publish "UserCreatedEvent"]) ∧
    UserService.updateUser
      ⟨[(0, ⟨0, "test@example.com".data, "Test User".data, 0, 0⟩)], 1, 0⟩ 0
      { email := some "Test@example.com".data, name := none } =
      (.error .conflict,
       ⟨[(0, ⟨0, "test@example.com".data, "Test User".data, 0, 0⟩)], 1, 0⟩, []) := by
  constructor
  · decide
  · decide

/-- Claim C2 amended: when `updates.email` is literally (case-sensitively)
equal to the stored email of the user being updated, the uniqueness check is
skipped, so the update does not conflict with the user itself and succeeds
(given the stored email passes the format validation). -/
theorem updateUser_same_literal_email_no_self_conflict
    (s : UserRepoState) (id : Nat) (u : JsUser)
    (hu : repoFindById s id = some u)
    (hv : emailRegexTest (normEmail u.email) = true) :
    ∃ u' s', UserService.updateUser s id { email := some u.email, name := none } =
      (.ok u', s', [.mutate, .publish "UserUpdatedEvent"]) := by
  have hne : u.email.isEmpty = false := by
    cases he : u.email with
    | nil => rw [he] at hv; exact absurd hv (by decide)
    | cons c t => rfl
  have ht : strTruthy (some u.email) = true := by
    simp [strTruthy, hne]
  unfold UserService.updateUser
  simp only [hu]
  simp only [ht, Option.getD_some, beq_self_eq_true, Bool.not_true, Bool.and_false,
    Bool.false_eq_true, if_false]
  unfold UserFactory.updateUser
  simp only [strTruthy, hne, Option.getD_some, Bool.not_false, if_true, hv, Bool.not_true,
    Bool.and_false, Bool.false_eq_true, if_false, Bool.false_and]
  unfold repoUpdate
  unfold repoFindById at hu
  simp only [hu]
  exact ⟨_, _, rfl⟩

/-- Witness for the amended claim C2: updating the stored user with the
literally identical email succeeds. -/
theorem updateUser_same_literal_email_no_self_conflict_witness :
    repoFindById ⟨[(0, ⟨0, "test@example.com".data, "Test User".data, 0, 0⟩)], 1, 0⟩ 0 =
      some ⟨0, "test@example.com".data, "Test User".data, 0, 0⟩ ∧
    emailRegexTest (normEmail "test@example.com".data) = true ∧
    (∃ u' s', UserService.updateUser
      ⟨[(0, ⟨0, "test@example.com".data, "Test User".data, 0, 0⟩)], 1, 0⟩ 0
      { email := some "test@example.com".data, name := none } =
      (.ok u', s', [.mutate, .publish "UserUpdatedEvent"])) :=
  ⟨by decide, by decide,
    updateUser_same_literal_email_no_self_conflict
      ⟨[(0, ⟨0, "test@example.com".data, "Test User".data, 0, 0⟩)], 1, 0⟩ 0
      ⟨0, "test@example.com".data, "Test User".data, 0, 0⟩ (by decide) (by decide)⟩

/-- Claim C6: a successful name-only update leaves the stored email
unchanged and stamps a modification timestamp strictly greater than the prior
one (hence strictly greater than the creation timestamp), both on the
returned snapshot and in the store. -/
theorem updateUser_name_only_frame
    (s : UserRepoState) (id : Nat) (u : JsUser) (n : Str)
    (hu : repoFindById s id = some u)
    (hn : 2 ≤ (jsTrim n).length)
    (hclock : u.updatedAt ≤ s.clock)
    (hca : u.createdAt ≤ u.updatedAt) :
    ∃ u' s', UserService.updateUser s id { email := none, name := some n } =
      (.ok u', s', [.mutate, .publish "UserUpdatedEvent"]) ∧
      u'.email = u.email ∧ u.updatedAt < u'.updatedAt ∧ u.createdAt < u'.updatedAt ∧
      repoFindById s' id = some u' := by
  have hne : n.isEmpty = false := by
    cases hc : n with
    | nil => rw [hc] at hn; simp [jsTrim] at hn
    | cons c t => rfl
  have htn : strTruthy (some n) = true := by simp [strTruthy, hne]
  have hnf : strTruthy (none : Option Str) = false := rfl
  unfold UserService.updateUser
  simp only [hu, hnf, Bool.false_and, Bool.false_eq_true, if_false]
  unfold UserFactory.updateUser
  simp only [strTruthy, hne, Option.getD_some, Bool.not_false, if_true, if_false,
    Bool.false_and, Bool.false_eq_true, Bool.and_false]
  have hlen : (decide ((jsTrim (jsTrim n)).length < 2)) = false := by
    rw [jsTrim_idem]
    simp only [decide_eq_false_iff_not]
    omega
  simp only [hlen, Bool.and_false, Bool.false_eq_true, if_false]
  unfold repoUpdate
  unfold repoFindById at hu
  simp only [hu]
  refine ⟨_, _, rfl, rfl, by simp; omega, by simp; omega, ?_⟩
  unfold repoFindById
  exact lookupAssoc_setAssoc s.users id _

/-- Claim C3 counterexample: a successful product creation whose recorded
side effects contain the repository write and no event publication at all
(the product service never uses its injected publisher). -/
theorem productService_publishes_no_event_counterexample :
    ProductService.createProduct emptyProductRepo
      { name := "Widget".data, price := 0, category := .electronics,
        description := "a fine widget".data, inStock := none } =
      (.ok ⟨0, "Widget".data, 0, .electronics, "a fine widget".data, true, 0, 0⟩,
       ⟨[(0, ⟨0, "Widget".data, 0, .electronics, "a fine widget".data, true, 0, 0⟩)], 1, 0⟩,
       [.mutate]) ∧
    List.countP (fun a => match a with | .publish _ => true | _ => false)
      [SvcAction.mutate] = 0 := by
  constructor
  · decide
  · decide

/-- Claim C3 amended: every successful mutating `UserService` operation
records exactly one event publication, placed after the repository mutation;
the `ProductService` operations record the mutation and publish no event. -/
theorem mutating_ops_event_traces :
    (∀ s r u s' tr, UserService.createUser s r = (.ok u, s', tr) →
      tr = [.mutate, .publish "UserCreatedEvent"]) ∧
    (∀ s id upd u s' tr, UserService.updateUser s id upd = (.ok u, s', tr) →
      tr = [.mutate, .publish "UserUpdatedEvent"]) ∧
    (∀ s id s' tr, UserService.deleteUser s id = (.ok (), s', tr) →
      tr = [.mutate, .publish "UserDeletedEvent"]) ∧
    (∀ s r u s' tr, ProductService.createProduct s r = (.ok u, s', tr) →
      tr = [.mutate]) ∧
    (∀ s id upd u s' tr, ProductService.updateProduct s id upd = (.ok u, s', tr) →
      tr = [.mutate]) ∧
    (∀ s id s' tr, ProductService.deleteProduct s id = (.ok (), s', tr) →
      tr = [.mutate]) := by
  refine ⟨?_, ?_, ?_, ?_, ?_, ?_⟩
  · intro s r u s' tr h
    unfold UserService.createUser at h
    split at h <;> simp_all
  · intro s id upd u s' tr h
    unfold UserService.updateUser at h
    split at h
    all_goals try (split at h)
    all_goals try (split at h)
    all_goals try (split at h)
    all_goals try (split at h)
    all_goals simp_all
  · intro s id s' tr h
    unfold UserService.deleteUser at h
    split at h
    all_goals try (split at h)
    all_goals try (split at h)
    all_goals simp_all
  · intro s r u s' tr h
    unfold ProductService.createProduct at h
    split at h <;> simp_all
  · intro s id upd u s' tr h
    unfold ProductService.updateProduct at h
    split at h
    all_goals try (split at h)
    all_goals try (split at h)
    all_goals simp_all
  · intro s id s' tr h
    unfold ProductService.deleteProduct at h
    split at h
    all_goals try (split at h)
    all_goals try (split at h)
    all_goals simp_all

/-- Witness for the amended claim C3: a concrete successful `createUser`
records the write followed by exactly one publication. -/
theorem mutating_ops_event_traces_witness :
    UserService.createUser emptyUserRepo { email := "a@b.co".data, name := "Ann".data } =
      (.ok ⟨0, "a@b.co".data, "Ann".data, 0, 0⟩,
       ⟨[(0, ⟨0, "a@b.co".data, "Ann".data, 0, 0⟩)], 1, 0⟩,
       [.mutate, .publish "UserCreatedEvent"]) ∧
    ([SvcAction.mutate, SvcAction.publish "UserCreatedEvent"] : List SvcAction) =
      [.mutate, .publish "UserCreatedEvent"] :=
  ⟨by decide,
    mutating_ops_event_traces.1 emptyUserRepo
      { email := "a@b.co".data, name := "Ann".data }
      ⟨0, "a@b.co".data, "Ann".data, 0, 0⟩
      ⟨[(0, ⟨0, "a@b.co".data, "Ann".data, 0, 0⟩)], 1, 0⟩
      [.mutate, .publish "UserCreatedEvent"] (by decide)⟩

/-- Claim C5 counterexample: the store can hold a product with price `0`
(the service-level create path performs no validation), and a factory merge
whose partial update contains only a name then fails with the price
validation error, although the update does not mention the price. -/
theorem productFactory_merge_fails_on_absent_field :
    ProductService.createProduct emptyProductRepo
      { name := "Widget".data, price := 0, category := .electronics,
        description := "a fine widget".data, inStock := none } =
      (.ok ⟨0, "Widget".data, 0, .electronics, "a fine widget".data, true, 0, 0⟩,
       ⟨[(0, ⟨0, "Widget".data, 0, .electronics, "a fine widget".data, true, 0, 0⟩)], 1, 0⟩,
       [.mutate]) ∧
    ProductFactory.updateProduct
      ⟨0, "Widget".data, 0, .electronics, "a fine widget".data, true, 0, 0⟩
      { name := some "New name".data } 1 = .error .invalidPrice := by
  constructor
  · decide
  · decide

/-- Claim C5 amended: the User factory validates exactly the truthy (present
and nonempty) fields of the partial update, keeps falsy fields from the
existing snapshot, and always refreshes the modification timestamp; the
Product factory keeps absent fields and refreshes the timestamp, but
re-validates the whole merged entity, so a field absent from the update (a
non-positive stored price) still fails the merge. -/
theorem factory_merge_validation_semantics :
    (∀ ex updates now, strTruthy updates.email = false →
       UserFactory.updateUser ex updates now ≠ .error .invalidEmail) ∧
    (∀ ex updates now, strTruthy updates.name = false →
       UserFactory.updateUser ex updates now ≠ .error .invalidName) ∧
    (∀ ex updates now u', UserFactory.updateUser ex updates now = .ok u' →
       (strTruthy updates.email = false → u'.email = ex.email) ∧
       (strTruthy updates.name = false → u'.name = ex.name) ∧
       u'.updatedAt = now) ∧
    (∀ ex updates now p', ProductFactory.updateProduct ex updates now = .ok p' →
       (updates.name = none → p'.name = ex.name) ∧
       (updates.price = none → p'.price = ex.price) ∧
       (updates.category = none → p'.category = ex.category) ∧
       (updates.description = none → p'.description = ex.description) ∧
       (updates.inStock = none → p'.inStock = ex.inStock) ∧
       p'.updatedAt = now) ∧
    (∀ ex updates now, updates.price = none → ex.price ≤ 0 →
       2 ≤ (jsTrim (updates.name.getD ex.name)).length →
       ProductFactory.updateProduct ex updates now = .error .invalidPrice) := by
  refine ⟨?_, ?_, ?_, ?_, ?_⟩
  · intro ex updates now hf
    unfold UserFactory.updateUser
    split
    all_goals try split
    all_goals try split
    all_goals simp_all
  · intro ex updates now hf
    unfold UserFactory.updateUser
    split
    all_goals try split
    all_goals try split
    all_goals simp_all
  · intro ex updates now u' h
    unfold UserFactory.updateUser at h
    split at h
    all_goals try (split at h)
    all_goals try (split at h)
    all_goals try (split at h)
    all_goals simp_all
    all_goals try (subst h)
    all_goals simp_all
  · intro ex updates now p' h
    unfold ProductFactory.updateProduct at h
    split at h
    all_goals simp_all
    all_goals try (subst h)
    all_goals simp_all
  · intro ex updates now hp hple hname
    unfold ProductFactory.updateProduct
    unfold validateProduct
    rw [hp]
    simp only [Option.getD_none]
    rw [if_neg (by omega), if_pos hple]

/-- Witness for the amended claim C5: a name-only merge on a zero-price
product fails with the price validation error, and a name-only merge through
the User factory keeps the email and refreshes the timestamp. -/
theorem factory_merge_validation_semantics_witness :
    ((({ name := some "New name".data } : UpdateProductRequest)).price = none ∧
      (⟨0, "Widget".data, 0, .electronics, "a fine widget".data, true, 0, 0⟩ : JsProduct).price ≤ 0 ∧
      2 ≤ (jsTrim ((({ name := some "New name".data } : UpdateProductRequest)).name.getD
        (⟨0, "Widget".data, 0, .electronics, "a fine widget".data, true, 0, 0⟩ : JsProduct).name)).length ∧
      ProductFactory.updateProduct
        ⟨0, "Widget".data, 0, .electronics, "a fine widget".data, true, 0, 0⟩
        { name := some "New name".data } 1 = .error .invalidPrice) ∧
    (strTruthy (none : Option Str) = false ∧
      UserFactory.updateUser ⟨0, "a@b.co".data, "Ann".data, 0, 0⟩
        { email := none, name := some "Bob".data } 5 =
        .ok ⟨0, "a@b.co".data, "Bob".data, 0, 5⟩ ∧
      ((⟨0, "a@b.co".data, "Bob".data, 0, 5⟩ : JsUser).email =
          (⟨0, "a@b.co".data, "Ann".data, 0, 0⟩ : JsUser).email ∧
        (⟨0, "a@b.co".data, "Bob".data, 0, 5⟩ : JsUser).updatedAt = 5)) := by
  refine ⟨⟨rfl, by decide, by decide,
    factory_merge_validation_semantics.2.2.2.2
      ⟨0, "Widget".data, 0, .electronics, "a fine widget".data, true, 0, 0⟩
      { name := some "New name".data } 1 rfl (by decide) (by decide)⟩,
    rfl, by decide, ?_, ?_⟩
  · exact (factory_merge_validation_semantics.2.2.1
      ⟨0, "a@b.co".data, "Ann".data, 0, 0⟩
      { email := none, name := some "Bob".data } 5
      ⟨0, "a@b.co".data, "Bob".data, 0, 5⟩ (by decide)).1 rfl
  · exact (factory_merge_validation_semantics.2.2.1
      ⟨0, "a@b.co".data, "Ann".data, 0, 0⟩
      { email := none, name := some "Bob".data } 5
      ⟨0, "a@b.co".data, "Bob".data, 0, 5⟩ (by decide)).2.2

/-- Claim C7 counterexample: the factory accepts a price strictly above
999999.99 (there is no upper-bound check): creating with price 1000000
succeeds, and merging a price of 1000000 into an existing product succeeds
as well. -/
theorem productFactory_accepts_price_above_bound :
    Rat.mk' 99999999 100 < (1000000 : ℚ) ∧
    exceptOk (ProductFactory.createProduct 0 "Gadget".data 1000000 .electronics
      "expensive gadget".data true 0) = true ∧
    ProductFactory.updateProduct
      ⟨0, "Widget".data, 1, .electronics, "a fine widget".data, true, 0, 0⟩
      { price := some 1000000 } 1 =
      .ok ⟨0, "Widget".data, 1000000, .electronics, "a fine widget".data, true, 0, 1⟩ := by
  refine ⟨by decide, by decide, by decide⟩

/-- Claim C7 amended: the factory rejects exactly a too-short name, a
non-positive price, or a too-short description — there is no upper bound on
the price; on successful creation the stored price is the input rounded to 2
decimal places, while a successful merge stores the updated price unrounded. -/
theorem productFactory_price_validation :
    (∀ id name price category description inStock now,
      (∃ e, ProductFactory.createProduct id name price category description inStock now =
        .error e) ↔
      ((jsTrim name).length < 2 ∨ price ≤ 0 ∨ (jsTrim description).length < 10)) ∧
    (∀ id name price category description inStock now p,
      ProductFactory.createProduct id name price category description inStock now = .ok p →
        p.price = jsRound2 price) ∧
    (∀ ex updates now p, ProductFactory.updateProduct ex updates now = .ok p →
        p.price = updates.price.getD ex.price) ∧
    (∀ ex q now, q ≤ 0 →
      2 ≤ (jsTrim ex.name).length →
      ProductFactory.updateProduct ex { price := some q } now = .error .invalidPrice) := by
  refine ⟨?_, ?_, ?_, ?_⟩
  · intro id name price category description inStock now
    by_cases h1 : (jsTrim name).length < 2
    · simp [ProductFactory.createProduct, validateProduct, h1]
    · by_cases h2 : price ≤ 0
      · simp [ProductFactory.createProduct, validateProduct, h1, h2]
      · by_cases h3 : (jsTrim description).length < 10
        · simp [ProductFactory.createProduct, validateProduct, h1, h2, h3]
        · simp [ProductFactory.createProduct, validateProduct, h1, h2, h3]
  · intro id name price category description inStock now p h
    unfold ProductFactory.createProduct at h
    split at h
    · simp at h
    · simp only [Except.ok.injEq] at h
      rw [← h]
  · intro ex updates now p h
    unfold ProductFactory.updateProduct at h
    split at h
    · simp at h
    · simp only [Except.ok.injEq] at h
      rw [← h]
  · intro ex q now hq hname
    unfold ProductFactory.updateProduct validateProduct
    simp only [Option.getD_none, Option.getD_some]
    rw [if_neg (by omega), if_pos hq]

/-- Witness for the amended claim C7: creation rounds the stored price, and
a non-positive merged price is rejected. -/
theorem productFactory_price_validation_witness :
    ProductFactory.createProduct 0 "Widget".data 1 .electronics
      "a fine widget".data true 0 =
      .ok ⟨0, jsTrim "Widget".data, jsRound2 1, .electronics,
           jsTrim "a fine widget".data, true, 0, 0⟩ ∧
    (⟨0, jsTrim "Widget".data, jsRound2 1, .electronics,
        jsTrim "a fine widget".data, true, 0, 0⟩ : JsProduct).price = jsRound2 1 ∧
    ((0 : ℚ) ≤ 0 ∧
      2 ≤ (jsTrim (⟨0, "Widget".data, 1, .electronics, "a fine widget".data,
        true, 0, 0⟩ : JsProduct).name).length ∧
      ProductFactory.updateProduct
        ⟨0, "Widget".data, 1, .electronics, "a fine widget".data, true, 0, 0⟩
        { price := some 0 } 3 = .error .invalidPrice) :=
  ⟨rfl,
    productFactory_price_validation.2.1 0 "Widget".data 1 .electronics
      "a fine widget".data true 0
      ⟨0, jsTrim "Widget".data, jsRound2 1, .electronics,
       jsTrim "a fine widget".data, true, 0, 0⟩ rfl,
    le_refl 0, by decide,
    productFactory_price_validation.2.2.2
      ⟨0, "Widget".data, 1, .electronics, "a fine widget".data, true, 0, 0⟩
      0 3 (le_refl 0) (by decide)⟩

theorem runHandlers_length (hs : List EventHandlerF) (e : DomainEventK) :
    (runHandlers hs e).length = hs.length := by
  induction hs with
  | nil => rfl
  | cons h rest ih => simp [runHandlers, ih]

theorem runHandlers_getElem? (hs : List EventHandlerF) (e : DomainEventK) (i : Nat) :
    (runHandlers hs e)[i]? = (hs[i]?).map (fun h => settleHandler h e) := by
  induction hs generalizing i with
  | nil => simp [runHandlers]
  | cons h rest ih =>
    cases i with
    | zero => simp [runHandlers]
    | succ j => simp [runHandlers, ih]

/-- Claim C8: `publish` always resolves (an individual handler failure is
caught, logged and not propagated), and it settles exactly one outcome per
handler registered for the event's kind, each outcome determined by that
handler alone — so one failing handler never prevents another from being
invoked. -/
theorem publish_settles_all_handlers (pub : SimpleEventPublisher) (e : DomainEventK) :
    ∃ outs, publishEP pub e = .ok outs ∧
      outs.length = getSubscribersCount pub e.kind ∧
      ∀ i : Nat, outs[i]? = ((getHandlersFor pub e.kind)[i]?).map (fun h => settleHandler h e) := by
  refine ⟨runHandlers (getHandlersFor pub e.kind) e, rfl, ?_, ?_⟩
  · exact runHandlers_length _ _
  · intro i
    exact runHandlers_getElem? _ _ _

/-- Claim C9: dispatch selects exactly the first registered sender whose
predicate accepts the recipient (later senders are never consulted once an
earlier one matches), fails with the no-sender error when none match, and on
the default registration order an email-shaped recipient is handled by the
Email sender while `unknown-shape` fails. -/
theorem dispatch_first_match_semantics :
    (∀ (strategies : List NotificationStrategyS) (message recipient : Str)
        (i : Nat) (hi : i < strategies.length),
      (∀ j : Nat, ∀ hj : j < strategies.length, j < i →
        (strategies.get ⟨j, hj⟩).canHandle recipient = false) →
      (strategies.get ⟨i, hi⟩).canHandle recipient = true →
      sendNotification strategies message recipient =
        .ok ((strategies.get ⟨i, hi⟩).tag,
             (strategies.get ⟨i, hi⟩).sendDelivers message recipient)) ∧
    (∀ (strategies : List NotificationStrategyS) (message recipient : Str),
      (∀ st ∈ strategies, st.canHandle recipient = false) →
      sendNotification strategies message recipient = .error .noSender) ∧
    (∀ message : Str, sendNotification defaultStrategies message "test@example.com".data =
      .ok ("EmailNotificationStrategy", true)) ∧
    (∀ message : Str, sendNotification defaultStrategies message "unknown-shape".data =
      .error .noSender) := by
  refine ⟨?_, ?_, ?_, ?_⟩
  · intro strategies
    induction strategies with
    | nil => intro message recipient i hi; simp at hi
    | cons st rest ih =>
      intro message recipient i hi hbefore hmatch
      cases i with
      | zero =>
        have hm : st.canHandle recipient = true := by simpa using hmatch
        unfold sendNotification
        rw [List.find?_cons]
        simp [hm]
      | succ k =>
        have hst : st.canHandle recipient = false := by
          simpa using hbefore 0 (by simp) (by omega)
        have hrec := ih message recipient k (by simpa using hi)
          (fun j hj hjk => by
            simpa using hbefore (j + 1) (by simpa using hj) (by omega))
          (by simpa using hmatch)
        unfold sendNotification at hrec ⊢
        rw [List.find?_cons]
        simp only [hst]
        simpa using hrec
  · intro strategies message recipient hall
    unfold sendNotification
    rw [List.find?_eq_none.mpr (fun st hm => by simp [hall st hm])]
  · intro message; rfl
  · intro message; rfl

/-- Witness for claim C9: with the default senders, a phone-shaped recipient
is rejected by the Email sender and handled by the Sms sender (index 1). -/
theorem dispatch_first_match_semantics_witness :
    sendNotification defaultStrategies "hello".data "+12345678901".data =
      .ok ("SmsNotificationStrategy", true) :=
  dispatch_first_match_semantics.1 defaultStrategies "hello".data "+12345678901".data 1
    (by decide) (by decide) (by decide)

theorem lookupAssoc_mem {α : Type} (l : List (Nat × α)) (k : Nat) (v : α)
    (h : lookupAssoc l k = some v) : (k, v) ∈ l := by
  induction l with
  | nil => simp [lookupAssoc] at h
  | cons kv rest ih =>
    cases kv with
    | mk k' v' =>
      unfold lookupAssoc at h
      by_cases hk : k' = k
      · rw [if_pos hk] at h
        simp only [Option.some.injEq] at h
        simp [hk, h]
      · rw [if_neg hk] at h
        simp [ih h]

theorem mem_setAssoc {α : Type} (l : List (Nat × α)) (k : Nat) (v : α) (kv : Nat × α)
    (h : kv ∈ setAssoc l k v) : kv = (k, v) ∨ kv ∈ l := by
  induction l with
  | nil => simp [setAssoc] at h; simp [h]
  | cons kv' rest ih =>
    cases kv' with
    | mk k' v' =>
      unfold setAssoc at h
      by_cases hk : k' = k
      · rw [if_pos hk] at h
        rcases List.mem_cons.mp h with h1 | h2
        · exact Or.inl h1
        · exact Or.inr (List.mem_cons.mpr (Or.inr h2))
      · rw [if_neg hk] at h
        rcases List.mem_cons.mp h with h1 | h2
        · exact Or.inr (List.mem_cons.mpr (Or.inl h1))
        · rcases ih h2 with h3 | h4
          · exact Or.inl h3
          · exact Or.inr (List.mem_cons.mpr (Or.inr h4))

theorem mem_eraseAssoc {α : Type} (l : List (Nat × α)) (k : Nat) (kv : Nat × α)
    (h : kv ∈ eraseAssoc l k) : kv ∈ l := by
  induction l with
  | nil => simp [eraseAssoc] at h
  | cons kv' rest ih =>
    cases kv' with
    | mk k' v' =>
      unfold eraseAssoc at h
      by_cases hk : k' = k
      · rw [if_pos hk] at h
        exact List.mem_cons.mpr (Or.inr h)
      · rw [if_neg hk] at h
        rcases List.mem_cons.mp h with h1 | h2
        · exact List.mem_cons.mpr (Or.inl h1)
        · exact List.mem_cons.mpr (Or.inr (ih h2))

theorem factory_email_canonical (ex : JsUser) (upd : UpdateUserRequest) (now : Nat)
    (newU : JsUser) (hex : ex.email = normEmail ex.email)
    (h : UserFactory.updateUser ex upd now = .ok newU) :
    newU.email = normEmail newU.email := by
  unfold UserFactory.updateUser at h
  split at h
  all_goals try (split at h)
  all_goals try (split at h)
  all_goals try (split at h)
  all_goals first
  | exact Except.noConfusion h
  | (simp only [Except.ok.injEq] at h
     subst h
     first
     | exact (normEmail_idem (upd.email.getD [])).symm
     | exact hex)

theorem createUser_state_cases (s : UserRepoState) (req : CreateUserRequest) :
    (UserService.createUser s req).2.1 = s ∨
    (UserService.createUser s req).2.1 =
      { users := s.users ++ [(s.nextId,
          { id := s.nextId, email := normEmail req.email, name := jsTrim req.name,
            createdAt := s.clock, updatedAt := s.clock })],
        nextId := s.nextId + 1, clock := s.clock } := by
  unfold UserService.createUser
  split
  · exact Or.inl rfl
  · exact Or.inr rfl

theorem updateUser_state_cases (s : UserRepoState) (id : Nat) (upd : UpdateUserRequest) :
    (UserService.updateUser s id upd).2.1 = s ∨
    ∃ ex newU, lookupAssoc s.users id = some ex ∧
      UserFactory.updateUser ex upd s.clock = .ok newU ∧
      (UserService.updateUser s id upd).2.1 =
        { users := setAssoc s.users id
            ⟨newU.id, newU.email, newU.name, newU.createdAt, s.clock + 1⟩,
          nextId := s.nextId, clock := s.clock + 1 } := by
  unfold UserService.updateUser
  cases hfind : repoFindById s id with
  | none => exact Or.inl rfl
  | some ex =>
    simp only []
    split
    · cases hfe : repoFindByEmail s (upd.email.getD []) with
      | some w => exact Or.inl rfl
      | none =>
        cases hfac : UserFactory.updateUser ex upd s.clock with
        | error e => exact Or.inl rfl
        | ok newU =>
          right
          refine ⟨ex, newU, hfind, hfac, ?_⟩
          unfold repoUpdate JsUser.toPartial
          unfold repoFindById at hfind
          simp only [hfind]
          rfl
    · cases hfac : UserFactory.updateUser ex upd s.clock with
      | error e => exact Or.inl rfl
      | ok newU =>
        right
        refine ⟨ex, newU, hfind, hfac, ?_⟩
        unfold repoUpdate JsUser.toPartial
        unfold repoFindById at hfind
        simp only [hfind]
        rfl

theorem deleteUser_state_cases (s : UserRepoState) (id : Nat) :
    (UserService.deleteUser s id).2.1 = s ∨
    (UserService.deleteUser s id).2.1 = { s with users := eraseAssoc s.users id } := by
  unfold UserService.deleteUser
  cases hfind : repoFindById s id with
  | none => exact Or.inl rfl
  | some u =>
    simp only []
    unfold repoDelete
    unfold repoFindById at hfind
    simp only [hfind]
    exact Or.inr rfl

/-- Claim C10: in every store reachable from the empty store through the
user-service operations, each stored email is its own lower-cased trimmed
form (the canonical-email invariant); the repository itself never normalises
on write — its `create` stores the email and name exactly as given — so the
case-insensitive `findByEmail` is correct only because the service and
factory maintain the invariant. -/
theorem user_store_email_canonical_invariant :
    (∀ s, ReachableU s → ∀ ku ∈ s.users, (Prod.snd ku).email = normEmail (Prod.snd ku).email) ∧
    (∀ s email name, ((repoCreate s email name).1).email = email ∧
      ((repoCreate s email name).1).name = name) := by
  constructor
  · intro s hreach
    induction hreach with
    | init => intro ku hm; simp [emptyUserRepo] at hm
    | create s' req hr ih =>
      rcases createUser_state_cases s' req with hc | hc
      · rw [hc]; exact ih
      · rw [hc]
        intro ku hm
        simp only [List.mem_append, List.mem_singleton] at hm
        rcases hm with hm | hm
        · exact ih ku hm
        · subst hm
          exact (normEmail_idem req.email).symm
    | update s' id upd hr ih =>
      rcases updateUser_state_cases s' id upd with hc | hc
      · rw [hc]; exact ih
      · obtain ⟨ex, newU, hlk, hfac, hc⟩ := hc
        rw [hc]
        intro ku hm
        rcases mem_setAssoc _ _ _ _ hm with hm | hm
        · subst hm
          have hex : ex.email = normEmail ex.email := ih (id, ex) (lookupAssoc_mem _ _ _ hlk)
          exact factory_email_canonical ex upd s'.clock newU hex hfac
        · exact ih ku hm
    | del s' id hr ih =>
      rcases deleteUser_state_cases s' id with hc | hc
      · rw [hc]; exact ih
      · rw [hc]
        intro ku hm
        exact ih ku (mem_eraseAssoc _ _ _ hm)
  · intro s email name
    exact ⟨rfl, rfl⟩

/-- Witness for claim C10: the single user stored after one `createUser`
carries a canonical email, and the repository `create` stores raw fields
unchanged. -/
theorem user_store_email_canonical_invariant_witness :
    ((0, (⟨0, "test@example.com".data, "Ann".data, 0, 0⟩ : JsUser)) : Nat × JsUser).2.email =
      normEmail ((0, (⟨0, "test@example.com".data, "Ann".data, 0, 0⟩ : JsUser)) : Nat × JsUser).2.email ∧
    ((repoCreate emptyUserRepo " Raw@Mail.Com ".data "N".data).1).email = " Raw@Mail.Com ".data :=
  ⟨user_store_email_canonical_invariant.1
      (UserService.createUser emptyUserRepo
        { email := "Test@Example.com".data, name := " Ann ".data }).2.1
      (ReachableU.create emptyUserRepo
        { email := "Test@Example.com".data, name := " Ann ".data } ReachableU.init)
      (0, ⟨0, "test@example.com".data, "Ann".data, 0, 0⟩) (by decide),
    (user_store_email_canonical_invariant.2 emptyUserRepo
      " Raw@Mail.Com ".data "N".data).1⟩

/-- Witness for claim C6 at a concrete store: a name-only update of the
stored user. -/
theorem updateUser_name_only_frame_witness :
    repoFindById ⟨[(0, ⟨0, "test@example.com".data, "Test User".data, 0, 0⟩)], 1, 0⟩ 0 =
      some ⟨0, "test@example.com".data, "Test User".data, 0, 0⟩ ∧
    2 ≤ (jsTrim "Johnny".data).length ∧
    (⟨0, "test@example.com".data, "Test User".data, 0, 0⟩ : JsUser).updatedAt ≤ 0 ∧
    (⟨0, "test@example.com".data, "Test User".data, 0, 0⟩ : JsUser).createdAt ≤
      (⟨0, "test@example.com".data, "Test User".data, 0, 0⟩ : JsUser).updatedAt ∧
    (∃ u' s', UserService.updateUser
      ⟨[(0, ⟨0, "test@example.com".data, "Test User".data, 0, 0⟩)], 1, 0⟩ 0
      { email := none, name := some "Johnny".data } =
      (.ok u', s', [.mutate, .publish "UserUpdatedEvent"]) ∧
      u'.email = (⟨0, "test@example.com".data, "Test User".data, 0, 0⟩ : JsUser).email ∧
      (⟨0, "test@example.com".data, "Test User".data, 0, 0⟩ : JsUser).updatedAt < u'.updatedAt ∧
      (⟨0, "test@example.com".data, "Test User".data, 0, 0⟩ : JsUser).createdAt < u'.updatedAt ∧
      repoFindById s' 0 = some u') :=
  ⟨by decide, by decide, by decide, by decide,
    updateUser_name_only_frame
      ⟨[(0, ⟨0, "test@example.com".data, "Test User".data, 0, 0⟩)], 1, 0⟩ 0
      ⟨0, "test@example.com".data, "Test User".data, 0, 0⟩ "Johnny".data
      (by decide) (by decide) (by decide) (by decide)⟩
